import Mathlib

/-!
Shallow embedding of `src/main.rs` of mamazu/deployment-tool: the application
state model (App, Deployment, Changelog), the key-dispatch logic of `run`,
and the fetch/parse pipeline (`get_changelog_info`, `main`), together with
theorems checking the specification's claims about them.
-/

/-- Embeds `struct CurrentCommit` (src/main.rs lines 14-19). -/
structure CurrentCommit where
  commit_hash : String
  title : String
  author_name : String
deriving DecidableEq, Repr

/-- Embeds `struct MergeRequest` (src/main.rs lines 28-34). -/
structure MergeRequest where
  ticket_number : String
  title : String
  github : String
  flags : String
deriving DecidableEq, Repr

/-- Embeds `struct Changelog` (src/main.rs lines 21-27). The `commit` field is
not optional in the source and the version field is named `next_version_number`. -/
structure Changelog where
  next_version_number : Nat
  commit : CurrentCommit
  current_time : String
  merge_requests : List MergeRequest
deriving DecidableEq, Repr

/-- Embeds `enum SelectedBlock` (src/main.rs lines 68-72). -/
inductive SelectedBlock where
  | Left
  | Right
deriving DecidableEq, Repr

/-- Embeds `struct DeploymentOption` (src/main.rs lines 74-77). -/
structure DeploymentOption where
  value : Bool
  label : String
deriving DecidableEq, Repr

/-- Embeds `struct Deployment` (src/main.rs lines 79-83). `current_option` is a
Rust `usize`, modelled as `Nat`. -/
structure Deployment where
  selected_options : List DeploymentOption
  current_option : Nat
  deployment_running : Bool
deriving DecidableEq, Repr

/-- Embeds `Deployment::new` (src/main.rs lines 85-97). -/
def Deployment.new : Deployment :=
  { selected_options :=
      [ { value := false, label := "Send Release Mail" },
        { value := true, label := "Sylius Deployment" },
        { value := true, label := "Sulu Deployment" } ],
    current_option := 0,
    deployment_running := false }

/-- Embeds `struct App` (src/main.rs lines 99-104). -/
structure App where
  selected : SelectedBlock
  ready_for_deployment : Bool
  deployment : Deployment
  changelog : List Changelog
deriving DecidableEq, Repr

/-- Embeds `App::new` (src/main.rs lines 106-114): no validation of the length
of the changelog vector takes place. -/
def App.new (changelog : List Changelog) : App :=
  { selected := SelectedBlock.Left,
    ready_for_deployment := false,
    deployment := Deployment.new,
    changelog := changelog }

/-- Embeds `App::get_current_commit_status` (src/main.rs lines 116-121).
Rust indexes `self.changelog[0]` / `self.changelog[1]`, panicking when out of
bounds; the partiality is modelled with `Option` via `List.get?`. -/
def App.get_current_commit_status (app : App) : Option Changelog :=
  match app.selected with
  | SelectedBlock.Left => app.changelog.get? 0
  | SelectedBlock.Right => app.changelog.get? 1

/-- The key codes that the dispatch in `run` (src/main.rs lines 127-169)
distinguishes. `other` stands for every key matched by the catch-all arms. -/
inductive KeyCode where
  | charQ
  | charC
  | charSpace
  | backspace
  | left
  | right
  | enter
  | up
  | down
  | tab
  | other
deriving DecidableEq, Repr

/-- Toggling the option at index `i`, embedding
`selected_options[current_option].value = !selected_options[current_option].value`
(src/main.rs line 162). Out of bounds the Rust code panics; here the list is
returned unchanged (the cursor invariant keeps the index in bounds). -/
def toggleOption : List DeploymentOption → Nat → List DeploymentOption
  | [], _ => []
  | o :: rest, 0 => { o with value := !o.value } :: rest
  | o :: rest, Nat.succ n => o :: toggleOption rest n

/-- Embeds one iteration of the key dispatch in `run` (src/main.rs
lines 128-167). The `q` key makes `run` return without mutating the state, so
it is absorbed by the catch-all arms here; non-key events are ignored by the
loop and need no representation. -/
def handleKey (app : App) (key : KeyCode) : App :=
  if !app.ready_for_deployment then
    match key with
    | KeyCode.charC => { app with ready_for_deployment := true }
    | KeyCode.backspace => { app with ready_for_deployment := false }
    | KeyCode.left =>
        if app.selected = SelectedBlock.Right then
          { app with selected := SelectedBlock.Left }
        else app
    | KeyCode.right =>
        if app.selected = SelectedBlock.Left then
          { app with selected := SelectedBlock.Right }
        else app
    | _ => app
  else
    match key with
    | KeyCode.enter =>
        { app with deployment := { app.deployment with deployment_running := true } }
    | KeyCode.charSpace => app
    | KeyCode.up =>
        let options_count := app.deployment.selected_options.length
        { app with deployment :=
            { app.deployment with
              current_option :=
                (app.deployment.current_option + options_count - 1) % options_count } }
    | KeyCode.down =>
        { app with deployment :=
            { app.deployment with
              current_option :=
                (app.deployment.current_option + 1) % app.deployment.selected_options.length } }
    | KeyCode.tab =>
        { app with deployment :=
            { app.deployment with
              selected_options :=
                toggleOption app.deployment.selected_options app.deployment.current_option } }
    | _ => app

/-- Running a sequence of key events through the dispatch loop. -/
def runKeys (app : App) (keys : List KeyCode) : App :=
  keys.foldl handleKey app

/-- JSON values, the shape `serde_json::from_str` deserializes from
(src/main.rs line 48). Numbers are modelled as integers; the fields the
program reads are unsigned integers and strings. -/
inductive Json where
  | null
  | bool (b : Bool)
  | num (n : Int)
  | str (s : String)
  | arr (elems : List Json)
  | obj (fields : List (String × Json))

/-- Field lookup in a JSON object, as serde's derived deserializer does. -/
def getField (fields : List (String × Json)) (key : String) : Option Json :=
  (fields.find? (fun p => p.fst == key)).map Prod.snd

/-- A JSON value read as a string field. -/
def parseString : Json → Option String
  | Json.str s => some s
  | _ => none

/-- A JSON value read as a `u32` field: serde rejects values outside
`[0, 2^32)`. -/
def parseU32 : Json → Option Nat
  | Json.num n => if 0 ≤ n ∧ n < 2 ^ 32 then some n.toNat else none
  | _ => none

/-- The derived deserializer of `CurrentCommit` (src/main.rs lines 14-19):
all three string fields are required. -/
def parseCurrentCommit : Json → Option CurrentCommit
  | Json.obj fields =>
      Option.bind ((getField fields "commit_hash").bind parseString) fun h =>
        Option.bind ((getField fields "title").bind parseString) fun t =>
          Option.bind ((getField fields "author_name").bind parseString) fun a =>
            some { commit_hash := h, title := t, author_name := a }
  | _ => none

/-- The derived deserializer of `MergeRequest` (src/main.rs lines 28-34). -/
def parseMergeRequest : Json → Option MergeRequest
  | Json.obj fields =>
      Option.bind ((getField fields "ticket_number").bind parseString) fun n =>
        Option.bind ((getField fields "title").bind parseString) fun t =>
          Option.bind ((getField fields "github").bind parseString) fun g =>
            Option.bind ((getField fields "flags").bind parseString) fun f =>
              some { ticket_number := n, title := t, github := g, flags := f }
  | _ => none

/-- Element-wise deserialization of a JSON array into merge requests. -/
def parseMergeRequestList : List Json → Option (List MergeRequest)
  | [] => some []
  | j :: rest =>
      Option.bind (parseMergeRequest j) fun m =>
        Option.bind (parseMergeRequestList rest) fun ms =>
          some (m :: ms)

/-- A JSON value read as `Vec<MergeRequest>`. -/
def parseMergeRequests : Json → Option (List MergeRequest)
  | Json.arr elems => parseMergeRequestList elems
  | _ => none

/-- The derived deserializer of `Changelog` (src/main.rs lines 21-27): the
version field is named `next_version_number` (no alias for `version`) and the
`commit` field is required (its type is `CurrentCommit`, not an `Option`). -/
def parseChangelog : Json → Option Changelog
  | Json.obj fields =>
      Option.bind ((getField fields "next_version_number").bind parseU32) fun v =>
        Option.bind ((getField fields "commit").bind parseCurrentCommit) fun c =>
          Option.bind ((getField fields "current_time").bind parseString) fun t =>
            Option.bind ((getField fields "merge_requests").bind parseMergeRequests) fun m =>
              some { next_version_number := v, commit := c, current_time := t,
                     merge_requests := m }
  | _ => none

/-- JSON encoding of a `CurrentCommit` as the richer payload variant emits it. -/
def encodeCurrentCommit (c : CurrentCommit) : Json :=
  Json.obj [("commit_hash", Json.str c.commit_hash),
            ("title", Json.str c.title),
            ("author_name", Json.str c.author_name)]

/-- JSON encoding of a `MergeRequest`. -/
def encodeMergeRequest (m : MergeRequest) : Json :=
  Json.obj [("ticket_number", Json.str m.ticket_number),
            ("title", Json.str m.title),
            ("github", Json.str m.github),
            ("flags", Json.str m.flags)]

/-- JSON encoding of a changelog in the richer schema variant: version under
the key `next_version_number`, with a `commit` object present. -/
def encodeChangelogRich (c : Changelog) : Json :=
  Json.obj [("next_version_number", Json.num (c.next_version_number : Int)),
            ("commit", encodeCurrentCommit c.commit),
            ("current_time", Json.str c.current_time),
            ("merge_requests", Json.arr (c.merge_requests.map encodeMergeRequest))]

/-- A payload in the other schema variant: version under the key `version`
and no `commit` field. -/
def slimVariantPayload : Json :=
  Json.obj [("version", Json.num 7),
            ("current_time", Json.str "2024-01-01 12:00"),
            ("merge_requests", Json.arr [])]

/-- What the external helper process produced: exit status, standard output
(already split into `some` well-formed JSON or `none`), standard error. -/
structure ProcessOutput where
  success : Bool
  stdout : Option Json
  stderr : String

/-- Embeds `get_changelog_info` (src/main.rs lines 36-49) as a function of the
external process's output: a panic (non-zero exit, or output that does not
deserialize) becomes `Except.error`. -/
def get_changelog_info (output : ProcessOutput) : Except String Changelog :=
  if !output.success then
    Except.error output.stderr
  else
    match output.stdout with
    | none => Except.error "JSON was not well-formatted"
    | some j =>
        match parseChangelog j with
        | none => Except.error "JSON was not well-formatted"
        | some c => Except.ok c

/-- Embeds the fetch-and-construct phase of `main` (src/main.rs lines 55-62):
both project ids are fetched and collected in order, and `App::new` runs only
if both succeed. The rayon parallelism is unobservable (no shared state), so
the two fetches are sequenced here. -/
def mainStartup (o1 o2 : ProcessOutput) : Except String App :=
  match get_changelog_info o1 with
  | Except.error e => Except.error e
  | Except.ok c1 =>
      match get_changelog_info o2 with
      | Except.error e => Except.error e
      | Except.ok c2 => Except.ok (App.new [c1, c2])

/-- Concrete commit data used for witnesses. -/
def sampleCommit : CurrentCommit :=
  { commit_hash := "abc123", title := "Fix login", author_name := "Mara" }

/-- Concrete changelog used for witnesses. -/
def sampleChangelog : Changelog :=
  { next_version_number := 42, commit := sampleCommit,
    current_time := "2024-01-01",
    merge_requests :=
      [{ ticket_number := "T-1", title := "Feature", github := "link", flags := "" }] }

/-- A concrete application state in the Deploying phase, for witnesses. -/
def deployApp : App :=
  { selected := SelectedBlock.Left,
    ready_for_deployment := true,
    deployment := Deployment.new,
    changelog := [sampleChangelog, sampleChangelog] }

/-- One cursor-up or cursor-down step while Deploying keeps the phase, keeps
the options, and keeps the cursor strictly below the number of options. -/
theorem handleKey_updown_step (app : App) (k : KeyCode)
    (hready : app.ready_for_deployment = true)
    (hcur : app.deployment.current_option < app.deployment.selected_options.length)
    (hk : k = KeyCode.up ∨ k = KeyCode.down) :
    (handleKey app k).ready_for_deployment = true ∧
    (handleKey app k).deployment.selected_options = app.deployment.selected_options ∧
    (handleKey app k).deployment.current_option <
      (handleKey app k).deployment.selected_options.length := by
  have hpos : 0 < app.deployment.selected_options.length :=
    Nat.lt_of_le_of_lt (Nat.zero_le _) hcur
  rcases hk with rfl | rfl <;>
    refine ⟨by simp [handleKey, hready], by simp [handleKey, hready], ?_⟩ <;>
    simpa [handleKey, hready] using Nat.mod_lt _ hpos

/-- Any sequence of cursor-up/cursor-down steps while Deploying keeps the
phase, the options and the cursor bound. -/
theorem runKeys_updown_invariant (keys : List KeyCode) (app : App)
    (hready : app.ready_for_deployment = true)
    (hcur : app.deployment.current_option < app.deployment.selected_options.length)
    (hkeys : ∀ k ∈ keys, k = KeyCode.up ∨ k = KeyCode.down) :
    (runKeys app keys).ready_for_deployment = true ∧
    (runKeys app keys).deployment.selected_options = app.deployment.selected_options ∧
    (runKeys app keys).deployment.current_option <
      (runKeys app keys).deployment.selected_options.length := by
  induction keys generalizing app with
  | nil => exact ⟨hready, rfl, by simpa [runKeys] using hcur⟩
  | cons k ks ih =>
    have hk : k = KeyCode.up ∨ k = KeyCode.down := hkeys k (by simp)
    obtain ⟨h1, h2, h3⟩ := handleKey_updown_step app k hready hcur hk
    have := ih (handleKey app k) h1 (h2 ▸ h3) (fun x hx => hkeys x (by simp [hx]))
    simpa [runKeys] using ⟨this.1, this.2.1.trans h2, this.2.2⟩

/-- C1: for a checklist of length L ≥ 1, any sequence of cursor-up/cursor-down
inputs issued while Deploying keeps the cursor in [0, L); a single cursor-up
from cursor 0 yields L−1 and a single cursor-down from cursor L−1 yields 0. -/
theorem C1_cursor_wraps (app : App) (keys : List KeyCode)
    (hready : app.ready_for_deployment = true)
    (hL : 1 ≤ app.deployment.selected_options.length)
    (hcur : app.deployment.current_option < app.deployment.selected_options.length)
    (hkeys : ∀ k ∈ keys, k = KeyCode.up ∨ k = KeyCode.down) :
    (runKeys app keys).deployment.current_option <
      (runKeys app keys).deployment.selected_options.length ∧
    (app.deployment.current_option = 0 →
      (handleKey app KeyCode.up).deployment.current_option =
        app.deployment.selected_options.length - 1) ∧
    (app.deployment.current_option = app.deployment.selected_options.length - 1 →
      (handleKey app KeyCode.down).deployment.current_option = 0) := by
  refine ⟨(runKeys_updown_invariant keys app hready hcur hkeys).2.2, ?_, ?_⟩
  · intro h0
    have hlt : app.deployment.selected_options.length - 1 <
        app.deployment.selected_options.length := by omega
    simp [handleKey, hready, h0, Nat.mod_eq_of_lt hlt]
  · intro hend
    have : app.deployment.current_option + 1 = app.deployment.selected_options.length := by
      omega
    simp [handleKey, hready, this]

/-- Witness for C1 at a concrete Deploying state and key sequence. -/
theorem C1_cursor_wraps_witness :
    (runKeys deployApp [KeyCode.up, KeyCode.down]).deployment.current_option <
      (runKeys deployApp [KeyCode.up, KeyCode.down]).deployment.selected_options.length :=
  (C1_cursor_wraps deployApp [KeyCode.up, KeyCode.down] rfl (by decide) (by decide)
    (by decide)).1

/-- C2: the phase flag can only go from Reviewing (false) to Deploying (true),
and only through the confirm key; no input ever resets it to Reviewing. -/
theorem C2_phase_one_way (app : App) (k : KeyCode) :
    (app.ready_for_deployment = true → (handleKey app k).ready_for_deployment = true) ∧
    ((handleKey app k).ready_for_deployment ≠ app.ready_for_deployment →
      app.ready_for_deployment = false ∧ k = KeyCode.charC ∧
      (handleKey app k).ready_for_deployment = true) := by
  cases hr : app.ready_for_deployment <;> cases k <;>
    simp [handleKey, hr] <;> split <;> simp_all

/-- Witness for C2 at a concrete Deploying state and the backspace key. -/
theorem C2_phase_one_way_witness :
    (handleKey deployApp KeyCode.backspace).ready_for_deployment = true :=
  (C2_phase_one_way deployApp KeyCode.backspace).1 rfl

/-- C3: the deployment-running flag starts out false, turns true exactly on
the start key while Deploying, is monotone, and re-issuing start while it is
already true leaves the whole state unchanged. -/
theorem C3_deployment_started (app : App) (k : KeyCode) (cl : List Changelog) :
    (App.new cl).deployment.deployment_running = false ∧
    (app.deployment.deployment_running = true →
      (handleKey app k).deployment.deployment_running = true) ∧
    (app.ready_for_deployment = true →
      (handleKey app KeyCode.enter).deployment.deployment_running = true) ∧
    (app.deployment.deployment_running = false →
      (handleKey app k).deployment.deployment_running = true →
      app.ready_for_deployment = true ∧ k = KeyCode.enter) ∧
    (app.ready_for_deployment = true → app.deployment.deployment_running = true →
      handleKey app KeyCode.enter = app) := by
  refine ⟨rfl, ?_, ?_, ?_, ?_⟩
  · intro hrun
    cases hr : app.ready_for_deployment <;> cases k <;>
      simp [handleKey, hr, hrun] <;> split <;> simp [hrun]
  · intro hr; simp [handleKey, hr]
  · intro hrun
    cases hr : app.ready_for_deployment <;> cases k <;>
      simp [handleKey, hr, hrun] <;> split <;> simp [hrun]
  · intro hr hrun
    cases app with
    | mk s r d c =>
      cases d with
      | mk o cur run =>
        simp at hr hrun
        simp [handleKey, hr, hrun]

/-- Witness for C3 at a concrete Deploying state and the tab key. -/
theorem C3_deployment_started_witness :
    (App.new []).deployment.deployment_running = false :=
  (C3_deployment_started deployApp KeyCode.tab []).1

/-- C6: while Deploying, move-left and move-right leave the whole state
unchanged, and no input at all changes the selected panel. -/
theorem C6_panel_frozen_while_deploying (app : App)
    (h : app.ready_for_deployment = true) :
    handleKey app KeyCode.left = app ∧
    handleKey app KeyCode.right = app ∧
    ∀ k, (handleKey app k).selected = app.selected := by
  refine ⟨by simp [handleKey, h], by simp [handleKey, h], ?_⟩
  intro k
  cases k <;> simp [handleKey, h]

/-- Witness for C6 at a concrete Deploying state. -/
theorem C6_panel_frozen_witness :
    handleKey deployApp KeyCode.left = deployApp :=
  (C6_panel_frozen_while_deploying deployApp rfl).1

/-- Double toggle at the same index restores the option list. -/
theorem toggleOption_toggleOption (l : List DeploymentOption) (i : Nat) :
    toggleOption (toggleOption l i) i = l := by
  induction l generalizing i with
  | nil => cases i <;> rfl
  | cons o rest ih =>
    cases i with
    | zero => simp [toggleOption]
    | succ n => simp [toggleOption, ih]

/-- C7: while Deploying, issuing toggle twice (the cursor does not move in
between) restores the whole state, in particular the toggled option's
original enabled value. -/
theorem C7_toggle_involution (app : App) (h : app.ready_for_deployment = true) :
    handleKey (handleKey app KeyCode.tab) KeyCode.tab = app := by
  cases app with
  | mk s r d c =>
    cases d with
    | mk o cur run =>
      simp at h
      subst h
      simp [handleKey, toggleOption_toggleOption]

/-- Witness for C7 at a concrete Deploying state. -/
theorem C7_toggle_involution_witness :
    handleKey (handleKey deployApp KeyCode.tab) KeyCode.tab = deployApp :=
  C7_toggle_involution deployApp rfl

/-- C8: while Reviewing, move-right from Left yields Right and a second
move-right changes nothing; symmetrically move-left from Right yields Left,
and each move is a no-op at its boundary. -/
theorem C8_panel_moves (app : App) (h : app.ready_for_deployment = false) :
    (app.selected = SelectedBlock.Left →
      (handleKey app KeyCode.right).selected = SelectedBlock.Right ∧
      handleKey (handleKey app KeyCode.right) KeyCode.right = handleKey app KeyCode.right) ∧
    (app.selected = SelectedBlock.Right →
      (handleKey app KeyCode.left).selected = SelectedBlock.Left ∧
      handleKey (handleKey app KeyCode.left) KeyCode.left = handleKey app KeyCode.left) ∧
    (app.selected = SelectedBlock.Left → handleKey app KeyCode.left = app) ∧
    (app.selected = SelectedBlock.Right → handleKey app KeyCode.right = app) := by
  cases hs : app.selected <;> simp [handleKey, h, hs]

/-- Witness for C8 at a concrete Reviewing state selecting the left panel. -/
theorem C8_panel_moves_witness :
    (handleKey (App.new [sampleChangelog, sampleChangelog]) KeyCode.right).selected =
      SelectedBlock.Right :=
  ((C8_panel_moves (App.new [sampleChangelog, sampleChangelog]) rfl).1 rfl).1

/-- C9: the default checklist is [Send Release Mail: false, Sylius
Deployment: true, Sulu Deployment: true] with cursor 0, and after confirming
into the Deploying phase the sequence [down, toggle, down, toggle] ends with
cursor 2 and all three options disabled. -/
theorem C9_default_checklist_scenario :
    Deployment.new.selected_options.map DeploymentOption.value = [false, true, true] ∧
    Deployment.new.selected_options.map DeploymentOption.label =
      ["Send Release Mail", "Sylius Deployment", "Sulu Deployment"] ∧
    Deployment.new.current_option = 0 ∧
    (runKeys (handleKey (App.new [sampleChangelog, sampleChangelog]) KeyCode.charC)
        [KeyCode.down, KeyCode.tab, KeyCode.down, KeyCode.tab]).deployment.current_option
      = 2 ∧
    (runKeys (handleKey (App.new [sampleChangelog, sampleChangelog]) KeyCode.charC)
        [KeyCode.down, KeyCode.tab, KeyCode.down, KeyCode.tab]).deployment.selected_options.map
        DeploymentOption.value = [false, false, false] := by
  decide

/-- C10: the App constructor stores any changelog list without a length
check; the selected-snapshot query reads index 0 for Left and 1 for Right, is
total for states with at least two snapshots, and fails on a constructed
state with fewer. -/
theorem C10_constructor_unvalidated (cl : List Changelog) (app : App)
    (h : 2 ≤ app.changelog.length) :
    (App.new cl).changelog = cl ∧
    app.get_current_commit_status.isSome = true ∧
    (app.selected = SelectedBlock.Left →
      app.get_current_commit_status = app.changelog.get? 0) ∧
    (app.selected = SelectedBlock.Right →
      app.get_current_commit_status = app.changelog.get? 1) ∧
    (App.new []).get_current_commit_status = none := by
  refine ⟨rfl, ?_, ?_, ?_, rfl⟩
  · cases hcl : app.changelog with
    | nil => rw [hcl] at h; simp at h
    | cons a t =>
      cases t with
      | nil => rw [hcl] at h; simp at h
      | cons b t' =>
        cases hs : app.selected <;>
          simp [App.get_current_commit_status, hs, hcl]
  · intro hs; simp [App.get_current_commit_status, hs]
  · intro hs; simp [App.get_current_commit_status, hs]

/-- Witness for C10 at a concrete two-snapshot state. -/
theorem C10_constructor_unvalidated_witness :
    (App.new [sampleChangelog, sampleChangelog]).get_current_commit_status.isSome = true :=
  (C10_constructor_unvalidated [] (App.new [sampleChangelog, sampleChangelog])
    (by decide)).2.1

/-- The merge-request deserializer inverts the encoder. -/
theorem parseMergeRequest_encode (m : MergeRequest) :
    parseMergeRequest (encodeMergeRequest m) = some m := rfl

/-- The commit deserializer inverts the encoder. -/
theorem parseCurrentCommit_encode (c : CurrentCommit) :
    parseCurrentCommit (encodeCurrentCommit c) = some c := rfl

/-- Element-wise deserialization inverts element-wise encoding. -/
theorem parseMergeRequestList_encode (l : List MergeRequest) :
    parseMergeRequestList (l.map encodeMergeRequest) = some l := by
  induction l with
  | nil => rfl
  | cons m t ih => simp [parseMergeRequestList, parseMergeRequest_encode, ih]

/-- A `u32`-ranged natural number survives the unsigned-integer field check. -/
theorem parseU32_natCast (v : Nat) (h : v < 2 ^ 32) :
    parseU32 (Json.num (v : Int)) = some v := by
  have h0 : (0 : Int) ≤ (v : Int) := Int.natCast_nonneg v
  have h1 : (v : Int) < 2 ^ 32 := by exact_mod_cast h
  simp [parseU32, h0, h1]
  omega

/-- A string field reduces on a string value. -/
theorem parseString_str (s : String) : parseString (Json.str s) = some s := rfl

/-- The array reader reduces on an array value. -/
theorem parseMergeRequests_arr (l : List Json) :
    parseMergeRequests (Json.arr l) = parseMergeRequestList l := rfl

/-- The changelog deserializer accepts every richer-variant payload. -/
theorem parseChangelog_encode (c : Changelog) (h : c.next_version_number < 2 ^ 32) :
    parseChangelog (encodeChangelogRich c) = some c := by
  simp only [encodeChangelogRich, parseChangelog]
  have g1 : getField
      [("next_version_number", Json.num (c.next_version_number : Int)),
       ("commit", encodeCurrentCommit c.commit),
       ("current_time", Json.str c.current_time),
       ("merge_requests", Json.arr (List.map encodeMergeRequest c.merge_requests))]
      "next_version_number" = some (Json.num (c.next_version_number : Int)) := rfl
  have g2 : getField
      [("next_version_number", Json.num (c.next_version_number : Int)),
       ("commit", encodeCurrentCommit c.commit),
       ("current_time", Json.str c.current_time),
       ("merge_requests", Json.arr (List.map encodeMergeRequest c.merge_requests))]
      "commit" = some (encodeCurrentCommit c.commit) := rfl
  have g3 : getField
      [("next_version_number", Json.num (c.next_version_number : Int)),
       ("commit", encodeCurrentCommit c.commit),
       ("current_time", Json.str c.current_time),
       ("merge_requests", Json.arr (List.map encodeMergeRequest c.merge_requests))]
      "current_time" = some (Json.str c.current_time) := rfl
  have g4 : getField
      [("next_version_number", Json.num (c.next_version_number : Int)),
       ("commit", encodeCurrentCommit c.commit),
       ("current_time", Json.str c.current_time),
       ("merge_requests", Json.arr (List.map encodeMergeRequest c.merge_requests))]
      "merge_requests" = some (Json.arr (List.map encodeMergeRequest c.merge_requests)) := rfl
  rw [g1, g2, g3, g4]
  rw [Option.some_bind', parseU32_natCast c.next_version_number h, Option.some_bind',
      Option.some_bind', parseCurrentCommit_encode, Option.some_bind',
      Option.some_bind', parseString_str, Option.some_bind',
      Option.some_bind', parseMergeRequests_arr, parseMergeRequestList_encode,
      Option.some_bind']

/-- C4 counterexample: a payload of the documented second schema variant —
version under the key `version` and no `commit` field — is rejected by the
deserializer, so parsing does not succeed for every payload of either shape. -/
theorem C4_counterexample_slim_variant_rejected :
    parseChangelog slimVariantPayload = none := rfl

/-- C4 (amended): the deserializer accepts exactly the richer schema variant —
any payload carrying `next_version_number`, a required `commit` object,
`current_time` and `merge_requests` parses — while any object payload missing
the key `next_version_number` (for example one using `version` instead) or
missing the key `commit` fails to parse. -/
theorem C4_parser_rich_variant_only (c : Changelog)
    (hv : c.next_version_number < 2 ^ 32) (fields : List (String × Json)) :
    parseChangelog (encodeChangelogRich c) = some c ∧
    (getField fields "next_version_number" = none →
      parseChangelog (Json.obj fields) = none) ∧
    (getField fields "commit" = none → parseChangelog (Json.obj fields) = none) := by
  refine ⟨parseChangelog_encode c hv, ?_, ?_⟩
  · intro hnone
    simp [parseChangelog, hnone]
  · intro hnone
    cases hv' : (getField fields "next_version_number").bind parseU32 with
    | none => simp [parseChangelog, hv']
    | some v => simp [parseChangelog, hv', hnone]

/-- Witness for C4 (amended) at a concrete changelog and the empty object. -/
theorem C4_parser_rich_variant_only_witness :
    parseChangelog (encodeChangelogRich sampleChangelog) = some sampleChangelog :=
  (C4_parser_rich_variant_only sampleChangelog (by decide) []).1

/-- C5: if either repository's fetch fails — non-zero exit status or output
that does not deserialize — startup yields an error before any App exists,
and every App that startup does produce carries exactly two snapshots. -/
theorem C5_fetch_failure_prevents_app (o1 o2 : ProcessOutput) :
    ((∃ e, get_changelog_info o1 = Except.error e) ∨
      (∃ e, get_changelog_info o2 = Except.error e) →
      ∃ e, mainStartup o1 o2 = Except.error e) ∧
    (∀ app, mainStartup o1 o2 = Except.ok app → app.changelog.length = 2) := by
  cases h1 : get_changelog_info o1 with
  | error e1 => exact ⟨fun _ => ⟨e1, by simp [mainStartup, h1]⟩, by simp [mainStartup, h1]⟩
  | ok c1 =>
    cases h2 : get_changelog_info o2 with
    | error e2 =>
      refine ⟨fun _ => ⟨e2, by simp [mainStartup, h1, h2]⟩, by simp [mainStartup, h1, h2]⟩
    | ok c2 =>
      refine ⟨?_, ?_⟩
      · rintro (⟨e, he⟩ | ⟨e, he⟩) <;> exact Except.noConfusion he
      · intro app happ
        simp [mainStartup, h1, h2] at happ
        subst happ
        rfl

/-- The output of a helper process that exited with a non-zero status. -/
def failedOutput : ProcessOutput :=
  { success := false, stdout := none, stderr := "helper exited with status 1" }

/-- The output of a helper process that succeeded with a rich-variant payload. -/
def goodOutput : ProcessOutput :=
  { success := true, stdout := some (encodeChangelogRich sampleChangelog), stderr := "" }

/-- Witness for C5: one failed fetch aborts startup before App construction. -/
theorem C5_fetch_failure_prevents_app_witness :
    ∃ e, mainStartup failedOutput goodOutput = Except.error e :=
  (C5_fetch_failure_prevents_app failedOutput goodOutput).1
    (Or.inl ⟨"helper exited with status 1", rfl⟩)
